import Mathlib

/-!
Verification of `art/poison_detection/clustering_handler.py`
(`ClusteringHandler.cluster_activations`) against its specification.

Shallow embedding notes:
* A numpy 2-D array is modelled by `NpMatrix`: the declared shape
  (`nrows`, `ncols`, as returned by `np.shape`) together with the row data.
* `FastICA`, `PCA` and `KMeans` are external sklearn collaborators.  They are
  modelled by an `Oracles` bundle of `fit`/`transform`/`predict` functions,
  abstract in the fitted-parameter types `P` (projectors) and `K` (clusterer).
  Per sklearn's documented contract, `fit_transform`/`fit_predict` refit the
  estimator on the given data (prior fitted state is discarded) and store the
  new fitted state on the instance; estimator instances are modelled as a
  configuration plus an `Option`al fitted state, exactly so that the source's
  reuse of one instance across the per-class loop is represented.
* `print` calls are modelled by accumulating the printed strings in a log.
* The number of projector `fit_transform` invocations is counted
  (`projCalls`), so that "no reduction algorithm is invoked" is observable.
* Python's `return` with no value (after printing an unsupported-method
  message) is modelled by an `Option` result being `none`.
-/

/-- A numpy 2-D numeric array: `np.shape` gives `(nrows, ncols)`;
`data` is the list of rows. -/
structure NpMatrix where
  nrows : Nat
  ncols : Nat
  data : List (List Rat)
deriving DecidableEq, Repr

/-- Configuration of `FastICA(n_components=ndims, max_iter=1000, tol=0.005)`. -/
structure FastICAConfig where
  n_components : Int
  max_iter : Int
  tol : Rat
deriving DecidableEq, Repr

/-- Configuration of `PCA(n_components=ndims)`. -/
structure PCAConfig where
  n_components : Int
deriving DecidableEq, Repr

/-- Configuration of `KMeans(n_clusters=n_clusters)`.  Note: the source passes
no `random_state`, so no seed appears in the configuration. -/
structure KMeansConfig where
  n_clusters : Int
deriving DecidableEq, Repr

/-- The external sklearn numeric algorithms, abstract in the fitted-parameter
types `P` (projector) and `K` (clusterer).  `fit` learns parameters from data;
`transform` / `predict` apply learned parameters to data. -/
structure Oracles (P K : Type) where
  fastICA_fit : FastICAConfig → NpMatrix → P
  fastICA_transform : P → NpMatrix → NpMatrix
  pca_fit : PCAConfig → NpMatrix → P
  pca_transform : P → NpMatrix → NpMatrix
  kmeans_fit : KMeansConfig → NpMatrix → K
  kmeans_predict : K → NpMatrix → List Int

/-- Which projector the dispatch on `reduce` selected, with its configuration. -/
inductive ProjectorConfig where
  | fastICA (c : FastICAConfig)
  | pca (c : PCAConfig)
deriving DecidableEq, Repr

/-- A projector estimator instance: configuration plus (mutable) fitted
state, as sklearn estimators carry. -/
structure Projector (P : Type) where
  config : ProjectorConfig
  fitted : Option P

/-- A clusterer estimator instance. -/
structure Clusterer (K : Type) where
  config : KMeansConfig
  fitted : Option K

/-- sklearn `projector.fit_transform(X)`: refit on `X` (prior fitted state is
discarded per the sklearn contract), store the new state, return the
transformed data and the updated instance. -/
def Projector.fit_transform (o : Oracles P K) (p : Projector P) (X : NpMatrix) :
    NpMatrix × Projector P :=
  match p.config with
  | .fastICA c =>
      let s := o.fastICA_fit c X
      (o.fastICA_transform s X, ⟨p.config, some s⟩)
  | .pca c =>
      let s := o.pca_fit c X
      (o.pca_transform s X, ⟨p.config, some s⟩)

/-- sklearn `clusterer.fit_predict(X)`: refit on `X`, store the new state,
return the labels and the updated instance. -/
def Clusterer.fit_predict (o : Oracles P K) (cl : Clusterer K) (X : NpMatrix) :
    List Int × Clusterer K :=
  let s := o.kmeans_fit cl.config X
  (o.kmeans_predict s X, ⟨cl.config, some s⟩)

/-- The message printed when dimensionality reduction is skipped. -/
def passThroughMsg (n_activations ndims : Int) : String :=
  "Dimensionality of activations = " ++ toString n_activations ++
    " less than ndims = " ++ toString ndims ++
    ". Not applying dimensionality reduction..."

/-- The message printed for an unsupported `reduce` value. -/
def unsupportedReduceMsg (reduce : String) : String :=
  reduce ++ " dimensionality reduction method not supported."

/-- The message printed for an unsupported `clustering_method` value. -/
def unsupportedClusteringMsg (clustering_method : String) : String :=
  clustering_method ++ " clustering method not supported."

/-- Observable outcome of one call to `cluster_activations`: the Python return
value (`none` models Python's bare `return`), the strings printed, and how
many times the projector's `fit_transform` ran. -/
structure CallResult where
  ret : Option (List (List Int) × List NpMatrix)
  log : List String
  projCalls : Nat
deriving DecidableEq, Repr

/-- The `for i, ac in enumerate(separated_activations)` loop of
`cluster_activations`: per class, compare `np.shape(ac)[1]` with `ndims`,
either `projector.fit_transform(ac)` or print-and-pass-through, append the
reduced activations, then `clusterer.fit_predict` and append the clusters.
The one projector and one clusterer instance are threaded through, as the
source reuses them across classes. -/
def runClasses (o : Oracles P K) (projector : Projector P) (clusterer : Clusterer K)
    (ndims : Int) :
    List NpMatrix → List (List Int) × List NpMatrix × List String × Nat
  | [] => ([], [], [], 0)
  | ac :: rest =>
    let n_activations : Int := ac.ncols
    if n_activations > ndims then
      let (reduced_activations, projector') := projector.fit_transform o ac
      let (clusters, clusterer') := clusterer.fit_predict o reduced_activations
      let (cs, rs, ls, np) := runClasses o projector' clusterer' ndims rest
      (clusters :: cs, reduced_activations :: rs, ls, np + 1)
    else
      let (clusters, clusterer') := clusterer.fit_predict o ac
      let (cs, rs, ls, np) := runClasses o projector clusterer' ndims rest
      (clusters :: cs, ac :: rs, passThroughMsg n_activations ndims :: ls, np)

/-- The class `ClusteringHandler`; its constructor stores nothing. -/
structure ClusteringHandler where
deriving DecidableEq, Repr

/-- `ClusteringHandler.cluster_activations`.  Resolves `reduce` to a
projector (`FastICA(n_components=ndims, max_iter=1000, tol=0.005)` or
`PCA(n_components=ndims)`) and `clustering_method` to
`KMeans(n_clusters=n_clusters)`; on an unsupported value it prints a message
and returns nothing (`none`).  Otherwise it runs the per-class loop and
returns `(separated_clusters, separated_reduced_activations)`. -/
def ClusteringHandler.cluster_activations (o : Oracles P K) (_self : ClusteringHandler)
    (separated_activations : List NpMatrix) (n_clusters : Int) (ndims : Int)
    (reduce : String) (clustering_method : String) : CallResult :=
  if reduce = "FastICA" ∨ reduce = "PCA" then
    let projector : Projector P :=
      if reduce = "FastICA" then ⟨.fastICA ⟨ndims, 1000, 0.005⟩, none⟩
      else ⟨.pca ⟨ndims⟩, none⟩
    if clustering_method = "KMeans" then
      let clusterer : Clusterer K := ⟨⟨n_clusters⟩, none⟩
      let (cs, rs, ls, np) := runClasses o projector clusterer ndims separated_activations
      ⟨some (cs, rs), ls, np⟩
    else
      ⟨none, [unsupportedClusteringMsg clustering_method], 0⟩
  else
    ⟨none, [unsupportedReduceMsg reduce], 0⟩

/-! ### Closed-form characterization of the per-class loop

The loop threads one projector and one clusterer instance, but sklearn's
`fit_transform` / `fit_predict` refit on the given data, so each class's
output is a function of that class's matrix and the configurations alone.
The lemmas below establish this closed form once; every claim is then
settled against it. -/

/-- Value of `fit_transform` for a projector configuration on data `X`. -/
def projValue (o : Oracles P K) : ProjectorConfig → NpMatrix → NpMatrix
  | .fastICA c, X => o.fastICA_transform (o.fastICA_fit c X) X
  | .pca c, X => o.pca_transform (o.pca_fit c X) X

/-- Value of `fit_predict` for a `KMeans` configuration on data `X`. -/
def kmeansValue (o : Oracles P K) (kc : KMeansConfig) (X : NpMatrix) : List Int :=
  o.kmeans_predict (o.kmeans_fit kc X) X

/-- The reduced activations the loop computes for one class. -/
def reduceOf (o : Oracles P K) (pc : ProjectorConfig) (ndims : Int) (ac : NpMatrix) :
    NpMatrix :=
  if ndims < (ac.ncols : Int) then projValue o pc ac else ac

/-- The cluster assignment the loop computes for one class. -/
def clustersOf (o : Oracles P K) (pc : ProjectorConfig) (kc : KMeansConfig)
    (ndims : Int) (ac : NpMatrix) : List Int :=
  kmeansValue o kc (reduceOf o pc ndims ac)

/-- The pass-through messages the loop prints, in class order. -/
def reducedMsgs (ndims : Int) (l : List NpMatrix) : List String :=
  (l.filter (fun ac => !(decide (ndims < (ac.ncols : Int))))).map
    (fun ac => passThroughMsg ac.ncols ndims)

/-- `fit_transform` depends only on the instance's configuration and the data,
never on previously fitted state. -/
theorem fit_transform_fst (o : Oracles P K) (p : Projector P) (X : NpMatrix) :
    (p.fit_transform o X).1 = projValue o p.config X := by
  rcases p with ⟨pc, fp⟩
  cases pc <;> simp [Projector.fit_transform, projValue]

/-- Closed form of the per-class loop: outputs are per-class maps over the
input, independent of the fitted state the threaded instances carry. -/
theorem runClasses_closed (o : Oracles P K) (pc : ProjectorConfig) (kc : KMeansConfig)
    (ndims : Int) :
    ∀ (l : List NpMatrix) (fp : Option P) (fk : Option K),
      runClasses o ⟨pc, fp⟩ ⟨kc, fk⟩ ndims l =
        (l.map (clustersOf o pc kc ndims), l.map (reduceOf o pc ndims),
          reducedMsgs ndims l,
          l.countP (fun ac => decide (ndims < (ac.ncols : Int)))) := by
  intro l
  induction l with
  | nil => intro fp fk; simp [runClasses, reducedMsgs]
  | cons ac rest ih =>
    intro fp fk
    by_cases h : ndims < (ac.ncols : Int)
    · cases pc with
      | fastICA c =>
        simp [runClasses, h, Projector.fit_transform, Clusterer.fit_predict, ih,
          clustersOf, reduceOf, kmeansValue, projValue, reducedMsgs,
          List.countP_cons]
      | pca c =>
        simp [runClasses, h, Projector.fit_transform, Clusterer.fit_predict, ih,
          clustersOf, reduceOf, kmeansValue, projValue, reducedMsgs,
          List.countP_cons]
    · simp [runClasses, h, Clusterer.fit_predict, ih, clustersOf, reduceOf,
        kmeansValue, reducedMsgs, List.countP_cons]

/-- The projector configuration `cluster_activations` builds for a supported
`reduce` value. -/
def projDispatch (reduce : String) (ndims : Int) : ProjectorConfig :=
  if reduce = "FastICA" then .fastICA ⟨ndims, 1000, 0.005⟩ else .pca ⟨ndims⟩

/-- Characterization of a call with supported method names: it returns the
closed-form per-class maps together with the pass-through log and the
projector invocation count. -/
theorem cluster_activations_supported (o : Oracles P K) (self : ClusteringHandler)
    (l : List NpMatrix) (n_clusters ndims : Int) {reduce clustering_method : String}
    (h1 : reduce = "FastICA" ∨ reduce = "PCA") (h2 : clustering_method = "KMeans") :
    ClusteringHandler.cluster_activations o self l n_clusters ndims
        reduce clustering_method =
      ⟨some (l.map (clustersOf o (projDispatch reduce ndims) ⟨n_clusters⟩ ndims),
          l.map (reduceOf o (projDispatch reduce ndims) ndims)),
        reducedMsgs ndims l,
        l.countP (fun ac => decide (ndims < (ac.ncols : Int)))⟩ := by
  subst h2
  rcases h1 with hF | hP
  · subst hF
    simp [ClusteringHandler.cluster_activations, runClasses_closed, projDispatch]
  · subst hP
    simp [ClusteringHandler.cluster_activations, runClasses_closed, projDispatch]

/-- Inversion: a call that returns a value (rather than `None`) had supported
method names, and its components are the closed-form per-class maps. -/
theorem cluster_activations_some_inv {o : Oracles P K} {self : ClusteringHandler}
    {l : List NpMatrix} {n_clusters ndims : Int} {reduce clustering_method : String}
    {pr : List (List Int) × List NpMatrix} {ls : List String} {np : Nat}
    (hret : ClusteringHandler.cluster_activations o self l n_clusters ndims
        reduce clustering_method = ⟨some pr, ls, np⟩) :
    (reduce = "FastICA" ∨ reduce = "PCA") ∧ clustering_method = "KMeans" ∧
      pr.1 = l.map (clustersOf o (projDispatch reduce ndims) ⟨n_clusters⟩ ndims) ∧
      pr.2 = l.map (reduceOf o (projDispatch reduce ndims) ndims) ∧
      ls = reducedMsgs ndims l ∧
      np = l.countP (fun ac => decide (ndims < (ac.ncols : Int))) := by
  by_cases h1 : reduce = "FastICA" ∨ reduce = "PCA"
  · by_cases h2 : clustering_method = "KMeans"
    · rw [cluster_activations_supported o self l n_clusters ndims h1 h2] at hret
      injection hret with hr hl hn
      injection hr with hpr
      refine ⟨h1, h2, ?_, ?_, hl.symm, hn.symm⟩
      · rw [← hpr]
      · rw [← hpr]
    · simp [ClusteringHandler.cluster_activations, h1, h2] at hret
  · simp [ClusteringHandler.cluster_activations, h1] at hret

/-- Per-class loop of the factory-style variant: a fresh, identically
configured projector and clusterer instance is constructed for every class. -/
def runClassesFresh (o : Oracles P K) (pc : ProjectorConfig) (kc : KMeansConfig)
    (ndims : Int) :
    List NpMatrix → List (List Int) × List NpMatrix × List String × Nat
  | [] => ([], [], [], 0)
  | ac :: rest =>
    let projector : Projector P := ⟨pc, none⟩
    let clusterer : Clusterer K := ⟨kc, none⟩
    let n_activations : Int := ac.ncols
    if n_activations > ndims then
      let (reduced_activations, _) := projector.fit_transform o ac
      let (clusters, _) := clusterer.fit_predict o reduced_activations
      let (cs, rs, ls, np) := runClassesFresh o pc kc ndims rest
      (clusters :: cs, reduced_activations :: rs, ls, np + 1)
    else
      let (clusters, _) := clusterer.fit_predict o ac
      let (cs, rs, ls, np) := runClassesFresh o pc kc ndims rest
      (clusters :: cs, ac :: rs, passThroughMsg n_activations ndims :: ls, np)

/-- Factory-style variant of `cluster_activations`: same dispatch and loop
body, but a fresh identically-configured instance per class. -/
def ClusteringHandler.cluster_activations_fresh (o : Oracles P K)
    (_self : ClusteringHandler) (separated_activations : List NpMatrix)
    (n_clusters : Int) (ndims : Int) (reduce : String) (clustering_method : String) :
    CallResult :=
  if reduce = "FastICA" ∨ reduce = "PCA" then
    if clustering_method = "KMeans" then
      let (cs, rs, ls, np) :=
        runClassesFresh o (projDispatch reduce ndims) ⟨n_clusters⟩ ndims
          separated_activations
      ⟨some (cs, rs), ls, np⟩
    else
      ⟨none, [unsupportedClusteringMsg clustering_method], 0⟩
  else
    ⟨none, [unsupportedReduceMsg reduce], 0⟩

/-- The fresh-instance loop has the same closed form as the reused-instance
loop. -/
theorem runClassesFresh_closed (o : Oracles P K) (pc : ProjectorConfig)
    (kc : KMeansConfig) (ndims : Int) :
    ∀ (l : List NpMatrix),
      runClassesFresh o pc kc ndims l =
        (l.map (clustersOf o pc kc ndims), l.map (reduceOf o pc ndims),
          reducedMsgs ndims l,
          l.countP (fun ac => decide (ndims < (ac.ncols : Int)))) := by
  intro l
  induction l with
  | nil => simp [runClassesFresh, reducedMsgs]
  | cons ac rest ih =>
    by_cases h : ndims < (ac.ncols : Int)
    · cases pc with
      | fastICA c =>
        simp [runClassesFresh, h, Projector.fit_transform, Clusterer.fit_predict, ih,
          clustersOf, reduceOf, kmeansValue, projValue, reducedMsgs,
          List.countP_cons]
      | pca c =>
        simp [runClassesFresh, h, Projector.fit_transform, Clusterer.fit_predict, ih,
          clustersOf, reduceOf, kmeansValue, projValue, reducedMsgs,
          List.countP_cons]
    · simp [runClassesFresh, h, Clusterer.fit_predict, ih, clustersOf, reduceOf,
        kmeansValue, reducedMsgs, List.countP_cons]

/-! ### Contracts of the external numeric collaborators

sklearn's estimators are external to this core; the spec treats them as
collaborators "providing standard fit/transform and fit/predict contracts".
The contracts below state exactly those interface guarantees. -/

/-- Standard shape contract: transforming preserves the number of rows, and
prediction yields one label per row. -/
def Oracles.shapeContract (o : Oracles P K) : Prop :=
  (∀ (c : FastICAConfig) (X : NpMatrix),
      (o.fastICA_transform (o.fastICA_fit c X) X).nrows = X.nrows) ∧
  (∀ (c : PCAConfig) (X : NpMatrix),
      (o.pca_transform (o.pca_fit c X) X).nrows = X.nrows) ∧
  (∀ (c : KMeansConfig) (X : NpMatrix),
      (o.kmeans_predict (o.kmeans_fit c X) X).length = X.nrows)

/-- Standard reduction contract: a projector configured with a nonnegative
`n_components` produces exactly that many columns. -/
def Oracles.colsContract (o : Oracles P K) : Prop :=
  (∀ (c : FastICAConfig) (X : NpMatrix), 0 ≤ c.n_components →
      ((o.fastICA_transform (o.fastICA_fit c X) X).ncols : Int) = c.n_components) ∧
  (∀ (c : PCAConfig) (X : NpMatrix), 0 ≤ c.n_components →
      ((o.pca_transform (o.pca_fit c X) X).ncols : Int) = c.n_components)

/-- Standard `KMeans` contract: with a positive `n_clusters`, every predicted
label lies in `[0, n_clusters)`. -/
def Oracles.labelContract (o : Oracles P K) : Prop :=
  ∀ (c : KMeansConfig) (X : NpMatrix), 0 < c.n_clusters →
    ∀ v ∈ o.kmeans_predict (o.kmeans_fit c X) X, 0 ≤ v ∧ v < c.n_clusters

/-- The `n_components` a projector configuration carries. -/
def ProjectorConfig.n_components : ProjectorConfig → Int
  | .fastICA c => c.n_components
  | .pca c => c.n_components

theorem projDispatch_n_components (reduce : String) (ndims : Int) :
    (projDispatch reduce ndims).n_components = ndims := by
  unfold projDispatch
  split <;> rfl

theorem projValue_nrows {o : Oracles P K} (hs : o.shapeContract)
    (pc : ProjectorConfig) (X : NpMatrix) : (projValue o pc X).nrows = X.nrows := by
  cases pc with
  | fastICA c => exact hs.1 c X
  | pca c => exact hs.2.1 c X

theorem projValue_ncols {o : Oracles P K} (hc : o.colsContract)
    (pc : ProjectorConfig) (X : NpMatrix) (h : 0 ≤ pc.n_components) :
    ((projValue o pc X).ncols : Int) = pc.n_components := by
  cases pc with
  | fastICA c => exact hc.1 c X h
  | pca c => exact hc.2 c X h

theorem reduceOf_nrows {o : Oracles P K} (hs : o.shapeContract)
    (pc : ProjectorConfig) (ndims : Int) (ac : NpMatrix) :
    (reduceOf o pc ndims ac).nrows = ac.nrows := by
  unfold reduceOf
  split
  · exact projValue_nrows hs pc ac
  · rfl

theorem kmeansValue_length {o : Oracles P K} (hs : o.shapeContract)
    (kc : KMeansConfig) (X : NpMatrix) :
    (kmeansValue o kc X).length = X.nrows :=
  hs.2.2 kc X

theorem clustersOf_length {o : Oracles P K} (hs : o.shapeContract)
    (pc : ProjectorConfig) (kc : KMeansConfig) (ndims : Int) (ac : NpMatrix) :
    (clustersOf o pc kc ndims ac).length = ac.nrows := by
  unfold clustersOf
  rw [kmeansValue_length hs, reduceOf_nrows hs]

/-! ### Concrete oracle packs

Two executable instantiations of the external collaborators, used to evaluate
the pipeline on concrete inputs.  `oW` labels every point `0`; `oW2` labels
the first point `0` and later points `1` whenever `n_clusters ≥ 2`.  Both
satisfy the standard contracts, so both are possible behaviors of an
*unseeded* `KMeans` run. -/

def oW : Oracles Int KMeansConfig where
  fastICA_fit := fun c _ => c.n_components
  fastICA_transform := fun p X =>
    ⟨X.nrows, p.toNat, List.replicate X.nrows (List.replicate p.toNat 0)⟩
  pca_fit := fun c _ => c.n_components
  pca_transform := fun p X =>
    ⟨X.nrows, p.toNat, List.replicate X.nrows (List.replicate p.toNat 0)⟩
  kmeans_fit := fun c _ => c
  kmeans_predict := fun _ X => List.replicate X.nrows 0

def oW2 : Oracles Int KMeansConfig :=
  { oW with
    kmeans_predict := fun k X =>
      (List.range X.nrows).map (fun j => if j = 0 ∨ k.n_clusters < 2 then 0 else 1) }

theorem oW_shape : oW.shapeContract := by
  refine ⟨fun c X => rfl, fun c X => rfl, fun c X => ?_⟩
  simp [oW]

theorem oW_cols : oW.colsContract := by
  constructor
  · intro c X h
    simpa [oW] using Int.toNat_of_nonneg h
  · intro c X h
    simpa [oW] using Int.toNat_of_nonneg h

theorem oW_label : oW.labelContract := by
  intro c X hc v hv
  have hv0 : v = 0 := List.eq_of_mem_replicate (by simpa [oW] using hv)
  subst hv0
  omega

theorem oW2_shape : oW2.shapeContract := by
  refine ⟨fun c X => rfl, fun c X => rfl, fun c X => ?_⟩
  simp [oW2, oW]

theorem oW2_label : oW2.labelContract := by
  intro c X hc v hv
  simp [oW2, oW] at hv
  rcases hv with ⟨j, -, hj⟩
  by_cases h : j = 0 ∨ c.n_clusters < 2
  · rw [if_pos h] at hj
    omega
  · rw [if_neg h] at hj
    push_neg at h
    omega

/-! ### Concrete inputs -/

/-- A 2×1 matrix: one class, two examples, one activation feature
(dimensionality 1 ≤ `ndims`, so reduction is skipped). -/
def mPass : NpMatrix := ⟨2, 1, [[1], [2]]⟩

/-- A 3×20 matrix: the spec's insufficient-samples scenario (3 rows,
`n_clusters = 5`). -/
def m3x20 : NpMatrix := ⟨3, 20, List.replicate 3 (List.replicate 20 0)⟩

/-- A 0×20 matrix: a class with zero rows. -/
def m0x20 : NpMatrix := ⟨0, 20, []⟩

/-- The observable per-class slice of a call's return value: the cluster
assignment and reduced matrix at class index `i` (or `none` if the call
returned `None`). -/
def CallResult.atClass (r : CallResult) (i : Nat) :
    Option (Option (List Int) × Option NpMatrix) :=
  r.ret.map (fun pr => (pr.1[i]?, pr.2[i]?))

/-! ### Claims -/

/-- C1: the claim says an unsupported `reduce`/`clustering_method` value or a
non-positive `n_clusters`/`ndims` raises an explicit configuration error
naming the unsupported value and the supported set, rather than returning a
`None`-like value.  The code instead prints a message (which does not name
the supported set) and returns `None`, and performs no validation of
`n_clusters`/`ndims` at all: with `n_clusters = 0` and `ndims = 0` the call
proceeds and returns a normal result. -/
theorem cluster_activations_C1_unsupported_config_behavior :
    (ClusteringHandler.cluster_activations oW ⟨⟩ [mPass] 2 10 "bogus" "KMeans"
        = ⟨none, [unsupportedReduceMsg "bogus"], 0⟩) ∧
    (ClusteringHandler.cluster_activations oW ⟨⟩ [mPass] 2 10 "FastICA" "bogus"
        = ⟨none, [unsupportedClusteringMsg "bogus"], 0⟩) ∧
    (ClusteringHandler.cluster_activations oW ⟨⟩ [mPass] 0 0 "FastICA" "KMeans").ret.isSome
        = true :=
  ⟨by decide, by decide, by decide⟩

/-- C2: the claim says the pipeline exposes a seed/determinism control making
two identically-parameterized invocations produce identical assignments.  The
signature of `cluster_activations` has no seed parameter and `KMeans` is
constructed without `random_state`, so the unseeded external clusterer may
behave as any function satisfying the standard `KMeans` contract: here are two
such behaviors (`oW`, `oW2`), both contract-compliant, giving different
cluster assignments for identical interface arguments. -/
theorem cluster_activations_C2_no_seed_nondeterminism :
    oW.shapeContract ∧ oW.labelContract ∧ oW2.shapeContract ∧ oW2.labelContract ∧
      (ClusteringHandler.cluster_activations oW ⟨⟩ [mPass] 2 10 "FastICA" "KMeans").ret
        ≠ (ClusteringHandler.cluster_activations oW2 ⟨⟩ [mPass] 2 10 "FastICA" "KMeans").ret :=
  ⟨oW_shape, oW_label, oW2_shape, oW2_label, by decide⟩

/-- C3: the claim says a class with zero rows, or fewer rows than
`n_clusters`, triggers a distinct `InsufficientDataError` with no partial
result.  The code has no row-count check at all: on the spec's own
insufficient-samples scenario (one 3×20 class, `n_clusters = 5`) and on a
zero-row class it hands the data straight to the external clusterer and
returns a normal result. -/
theorem cluster_activations_C3_no_insufficient_data_check :
    ((ClusteringHandler.cluster_activations oW ⟨⟩ [m3x20] 5 10 "FastICA" "KMeans").ret
        = some ([[0, 0, 0]], [⟨3, 10, List.replicate 3 (List.replicate 10 0)⟩])) ∧
    ((ClusteringHandler.cluster_activations oW ⟨⟩ [m0x20] 2 10 "FastICA" "KMeans").ret
        = some ([[]], [⟨0, 10, []⟩])) :=
  ⟨by decide, by decide⟩

/-- C4: for every call that returns a value, both returned sequences have one
entry per input class, and for class `i` the assignment length and the
reduced-matrix row count equal the input matrix's row count (given the
standard shape contract of the external algorithms). -/
theorem cluster_activations_C4_shape_invariant {P K : Type} (o : Oracles P K)
    (self : ClusteringHandler) (l : List NpMatrix) (n_clusters ndims : Int)
    (reduce clustering_method : String) (hs : o.shapeContract)
    (cs : List (List Int)) (rs : List NpMatrix) (ls : List String) (np : Nat)
    (hret : ClusteringHandler.cluster_activations o self l n_clusters ndims reduce
        clustering_method = ⟨some (cs, rs), ls, np⟩) :
    cs.length = l.length ∧ rs.length = l.length ∧
      ∀ (i : Nat) (ac : NpMatrix), l[i]? = some ac →
        ∃ cl r, cs[i]? = some cl ∧ rs[i]? = some r ∧
          cl.length = ac.nrows ∧ r.nrows = ac.nrows := by
  obtain ⟨h1, h2, hcs, hrs, -, -⟩ := cluster_activations_some_inv hret
  have hcs' : cs = l.map (clustersOf o (projDispatch reduce ndims) ⟨n_clusters⟩ ndims) := hcs
  have hrs' : rs = l.map (reduceOf o (projDispatch reduce ndims) ndims) := hrs
  subst hcs'
  subst hrs'
  refine ⟨by simp, by simp, ?_⟩
  intro i ac hac
  refine ⟨clustersOf o (projDispatch reduce ndims) ⟨n_clusters⟩ ndims ac,
      reduceOf o (projDispatch reduce ndims) ndims ac, ?_, ?_, ?_, ?_⟩
  · simp [List.getElem?_map, hac]
  · simp [List.getElem?_map, hac]
  · exact clustersOf_length hs _ _ _ _
  · exact reduceOf_nrows hs _ _ _

/-- Witness for C4 at a concrete input. -/
theorem cluster_activations_C4_shape_invariant_witness :
    ([[(0 : Int), 0]] : List (List Int)).length = [mPass].length ∧
      ([mPass] : List NpMatrix).length = [mPass].length ∧
      ∀ (i : Nat) (ac : NpMatrix), ([mPass] : List NpMatrix)[i]? = some ac →
        ∃ cl r, ([[(0 : Int), 0]] : List (List Int))[i]? = some cl ∧
          ([mPass] : List NpMatrix)[i]? = some r ∧
          cl.length = ac.nrows ∧ r.nrows = ac.nrows :=
  cluster_activations_C4_shape_invariant oW ⟨⟩ [mPass] 2 10 "FastICA" "KMeans"
    oW_shape [[0, 0]] [mPass] [passThroughMsg 1 10] 0 (by decide)

/-- C5: for every class whose feature dimensionality is at most `ndims`, the
returned reduced matrix is the input matrix itself, the skip is surfaced as a
printed message, and the projector is invoked exactly once per class whose
dimensionality exceeds `ndims` (hence never for pass-through classes). -/
theorem cluster_activations_C5_pass_through {P K : Type} (o : Oracles P K)
    (self : ClusteringHandler) (l : List NpMatrix) (n_clusters ndims : Int)
    (reduce clustering_method : String)
    (cs : List (List Int)) (rs : List NpMatrix) (ls : List String) (np : Nat)
    (hret : ClusteringHandler.cluster_activations o self l n_clusters ndims reduce
        clustering_method = ⟨some (cs, rs), ls, np⟩) :
    np = l.countP (fun ac => decide (ndims < (ac.ncols : Int))) ∧
      ∀ (i : Nat) (ac : NpMatrix), l[i]? = some ac → (ac.ncols : Int) ≤ ndims →
        rs[i]? = some ac ∧ passThroughMsg ac.ncols ndims ∈ ls := by
  obtain ⟨h1, h2, -, hrs, hls, hnp⟩ := cluster_activations_some_inv hret
  have hrs' : rs = l.map (reduceOf o (projDispatch reduce ndims) ndims) := hrs
  subst hrs'
  refine ⟨hnp, ?_⟩
  intro i ac hac hle
  have hmem : ac ∈ l := List.getElem?_mem hac
  have hnotlt : ¬ ndims < (ac.ncols : Int) := not_lt.mpr hle
  constructor
  · rw [List.getElem?_map, hac]
    simp [reduceOf, hnotlt]
  · rw [hls]
    unfold reducedMsgs
    apply List.mem_map_of_mem
    refine List.mem_filter.mpr ⟨hmem, ?_⟩
    simp [hnotlt]

/-- Witness for C5 at a concrete input. -/
theorem cluster_activations_C5_pass_through_witness :
    (0 : Nat) = ([mPass] : List NpMatrix).countP
        (fun ac => decide ((10 : Int) < (ac.ncols : Int))) ∧
      ∀ (i : Nat) (ac : NpMatrix), ([mPass] : List NpMatrix)[i]? = some ac →
        (ac.ncols : Int) ≤ 10 →
        ([mPass] : List NpMatrix)[i]? = some ac ∧
          passThroughMsg ac.ncols 10 ∈ [passThroughMsg 1 10] :=
  cluster_activations_C5_pass_through oW ⟨⟩ [mPass] 2 10 "FastICA" "KMeans"
    [[0, 0]] [mPass] [passThroughMsg 1 10] 0 (by decide)

/-- C6: for every class, the returned reduced matrix has
`min ndims (input column count)` columns (given a positive `ndims` and the
standard reduction contract of the external projectors). -/
theorem cluster_activations_C6_reduced_ncols {P K : Type} (o : Oracles P K)
    (self : ClusteringHandler) (l : List NpMatrix) (n_clusters ndims : Int)
    (reduce clustering_method : String)
    (hc : o.colsContract) (hnd : 0 < ndims)
    (cs : List (List Int)) (rs : List NpMatrix) (ls : List String) (np : Nat)
    (hret : ClusteringHandler.cluster_activations o self l n_clusters ndims reduce
        clustering_method = ⟨some (cs, rs), ls, np⟩) :
    ∀ (i : Nat) (ac : NpMatrix), l[i]? = some ac →
      ∃ r, rs[i]? = some r ∧ (r.ncols : Int) = min ndims (ac.ncols : Int) := by
  obtain ⟨-, -, -, hrs, -, -⟩ := cluster_activations_some_inv hret
  have hrs' : rs = l.map (reduceOf o (projDispatch reduce ndims) ndims) := hrs
  subst hrs'
  intro i ac hac
  refine ⟨reduceOf o (projDispatch reduce ndims) ndims ac, ?_, ?_⟩
  · simp [List.getElem?_map, hac]
  · by_cases h : ndims < (ac.ncols : Int)
    · have hn := projValue_ncols hc (projDispatch reduce ndims) ac
        (by rw [projDispatch_n_components]; omega)
      rw [projDispatch_n_components] at hn
      simp [reduceOf, h, hn, min_eq_left (le_of_lt h)]
    · simp [reduceOf, h, min_eq_right (not_lt.mp h)]

/-- Witness for C6 at a concrete input and class index 0. -/
theorem cluster_activations_C6_reduced_ncols_witness :
    ∃ r, ([⟨3, 10, List.replicate 3 (List.replicate 10 0)⟩] : List NpMatrix)[0]?
        = some r ∧ (r.ncols : Int) = min 10 (m3x20.ncols : Int) :=
  cluster_activations_C6_reduced_ncols oW ⟨⟩ [m3x20] 5 10 "FastICA" "KMeans"
    oW_cols (by decide) [[0, 0, 0]] [⟨3, 10, List.replicate 3 (List.replicate 10 0)⟩]
    [] 1 (by decide) 0 m3x20 (by decide)

/-- C7: for every call that returns a value with a positive `n_clusters`,
every value in every returned cluster assignment lies in `[0, n_clusters)`
(given the standard `KMeans` label contract). -/
theorem cluster_activations_C7_label_range {P K : Type} (o : Oracles P K)
    (self : ClusteringHandler) (l : List NpMatrix) (n_clusters ndims : Int)
    (reduce clustering_method : String)
    (hl : o.labelContract) (hnc : 0 < n_clusters)
    (cs : List (List Int)) (rs : List NpMatrix) (ls : List String) (np : Nat)
    (hret : ClusteringHandler.cluster_activations o self l n_clusters ndims reduce
        clustering_method = ⟨some (cs, rs), ls, np⟩) :
    ∀ cl ∈ cs, ∀ v ∈ cl, 0 ≤ v ∧ v < n_clusters := by
  obtain ⟨-, -, hcs, -, -, -⟩ := cluster_activations_some_inv hret
  have hcs' : cs = l.map (clustersOf o (projDispatch reduce ndims) ⟨n_clusters⟩ ndims) := hcs
  subst hcs'
  intro cl hcl v hv
  obtain ⟨ac, -, rfl⟩ := List.mem_map.mp hcl
  exact hl ⟨n_clusters⟩ (reduceOf o (projDispatch reduce ndims) ndims ac) hnc v hv

/-- Witness for C7 at a concrete input, assignment and label. -/
theorem cluster_activations_C7_label_range_witness :
    (0 : Int) ≤ 0 ∧ (0 : Int) < 2 :=
  cluster_activations_C7_label_range oW ⟨⟩ [mPass] 2 10 "FastICA" "KMeans"
    oW_label (by decide) [[0, 0]] [mPass] [passThroughMsg 1 10] 0 (by decide)
    [0, 0] (by decide) 0 (by decide)

/-- C8: per-class outputs depend only on that class's matrix and the
configuration.  First conjunct: the pipeline (which reuses one projector and
one clusterer instance, refitting them on every class) is observationally
equivalent to the factory-style variant constructing a fresh,
identically-configured instance per class.  Second conjunct: the output pair
at class index `i` is a function of the input matrix at index `i` alone. -/
theorem cluster_activations_C8_per_class_refit_equiv {P K : Type} (o : Oracles P K)
    (self : ClusteringHandler) (n_clusters ndims : Int)
    (reduce clustering_method : String) :
    (∀ l, ClusteringHandler.cluster_activations o self l n_clusters ndims reduce
          clustering_method
        = ClusteringHandler.cluster_activations_fresh o self l n_clusters ndims reduce
          clustering_method) ∧
    (∀ (l₁ l₂ : List NpMatrix) (i : Nat), l₁[i]? = l₂[i]? →
      (ClusteringHandler.cluster_activations o self l₁ n_clusters ndims reduce
          clustering_method).atClass i
        = (ClusteringHandler.cluster_activations o self l₂ n_clusters ndims reduce
          clustering_method).atClass i) := by
  by_cases h1 : reduce = "FastICA" ∨ reduce = "PCA"
  · by_cases h2 : clustering_method = "KMeans"
    · constructor
      · intro l
        rw [cluster_activations_supported o self l n_clusters ndims h1 h2,
          ClusteringHandler.cluster_activations_fresh, if_pos h1, if_pos h2,
          runClassesFresh_closed]
      · intro l₁ l₂ i h
        rw [cluster_activations_supported o self l₁ n_clusters ndims h1 h2,
          cluster_activations_supported o self l₂ n_clusters ndims h1 h2]
        simp [CallResult.atClass, List.getElem?_map, h]
    · constructor
      · intro l
        simp [ClusteringHandler.cluster_activations,
          ClusteringHandler.cluster_activations_fresh, h1, h2]
      · intro l₁ l₂ i h
        simp [ClusteringHandler.cluster_activations, CallResult.atClass, h1, h2]
  · constructor
    · intro l
      simp [ClusteringHandler.cluster_activations,
        ClusteringHandler.cluster_activations_fresh, h1]
    · intro l₁ l₂ i h
      simp [ClusteringHandler.cluster_activations, CallResult.atClass, h1]

/-- Witness for C8: a concrete reused-vs-fresh equality, and equal class-0
outputs for two different inputs agreeing at index 0. -/
theorem cluster_activations_C8_per_class_refit_equiv_witness :
    (ClusteringHandler.cluster_activations oW ⟨⟩ [mPass] 2 10 "FastICA" "KMeans"
        = ClusteringHandler.cluster_activations_fresh oW ⟨⟩ [mPass] 2 10 "FastICA"
          "KMeans") ∧
    ((ClusteringHandler.cluster_activations oW ⟨⟩ [mPass] 2 10 "FastICA"
          "KMeans").atClass 0
        = (ClusteringHandler.cluster_activations oW ⟨⟩ [mPass, m3x20] 2 10 "FastICA"
          "KMeans").atClass 0) :=
  ⟨(cluster_activations_C8_per_class_refit_equiv oW ⟨⟩ 2 10 "FastICA" "KMeans").1
      [mPass],
    (cluster_activations_C8_per_class_refit_equiv oW ⟨⟩ 2 10 "FastICA" "KMeans").2
      [mPass] [mPass, m3x20] 0 (by decide)⟩

/-- C9 counterexample: the claim says a call performs no I/O, but on a class
whose dimensionality is at most `ndims` the code prints a diagnostic message
to stdout, so the printed-output log of the call is nonempty. -/
theorem cluster_activations_C9_print_io_cex :
    (ClusteringHandler.cluster_activations oW ⟨⟩ [mPass] 2 10 "FastICA"
        "KMeans").log ≠ [] := by
  decide

/-- C9 amended: the call never mutates its input matrices or any global state
(it is a pure function of its arguments in this embedding), and its only side
effect beyond the returned arrays is diagnostic printing: every printed
string is a pass-through notice for some class dimensionality, or one of the
two unsupported-method notices. -/
theorem cluster_activations_C9_amended_effects {P K : Type} (o : Oracles P K)
    (self : ClusteringHandler) (l : List NpMatrix) (n_clusters ndims : Int)
    (reduce clustering_method : String) :
    ∀ m ∈ (ClusteringHandler.cluster_activations o self l n_clusters ndims reduce
        clustering_method).log,
      (∃ n_act : Int, m = passThroughMsg n_act ndims) ∨
        m = unsupportedReduceMsg reduce ∨
        m = unsupportedClusteringMsg clustering_method := by
  intro m hm
  by_cases h1 : reduce = "FastICA" ∨ reduce = "PCA"
  · by_cases h2 : clustering_method = "KMeans"
    · rw [cluster_activations_supported o self l n_clusters ndims h1 h2] at hm
      simp only [reducedMsgs] at hm
      obtain ⟨ac, -, rfl⟩ := List.mem_map.mp hm
      exact Or.inl ⟨ac.ncols, rfl⟩
    · simp [ClusteringHandler.cluster_activations, h1, h2] at hm
      simp [hm]
  · simp [ClusteringHandler.cluster_activations, h1] at hm
    simp [hm]

/-- Witness for C9's amended theorem at a concrete printed message. -/
theorem cluster_activations_C9_amended_effects_witness :
    (∃ n_act : Int, passThroughMsg 1 10 = passThroughMsg n_act 10) ∨
      passThroughMsg 1 10 = unsupportedReduceMsg "FastICA" ∨
      passThroughMsg 1 10 = unsupportedClusteringMsg "KMeans" :=
  cluster_activations_C9_amended_effects oW ⟨⟩ [mPass] 2 10 "FastICA" "KMeans"
    (passThroughMsg 1 10) (by decide)

/-- C10: with supported method choices and an empty list of per-class
matrices, the call raises no error and returns the pair of two empty lists
(with nothing printed and no projector invocation). -/
theorem cluster_activations_C10_empty_input {P K : Type} (o : Oracles P K)
    (self : ClusteringHandler) (n_clusters ndims : Int)
    {reduce clustering_method : String}
    (h1 : reduce = "FastICA" ∨ reduce = "PCA") (h2 : clustering_method = "KMeans") :
    ClusteringHandler.cluster_activations o self [] n_clusters ndims reduce
        clustering_method = ⟨some ([], []), [], 0⟩ := by
  rw [cluster_activations_supported o self [] n_clusters ndims h1 h2]
  simp [reducedMsgs]

/-- Witness for C10 at concrete arguments. -/
theorem cluster_activations_C10_empty_input_witness :
    ClusteringHandler.cluster_activations oW ⟨⟩ [] 2 10 "FastICA" "KMeans"
      = ⟨some ([], []), [], 0⟩ :=
  cluster_activations_C10_empty_input oW ⟨⟩ 2 10 (Or.inl rfl) rfl
